import Mathlib

/-!
Verification of the contact-ledger store of `gerenciar-backend`.

The repository is a small Express service (several variants of
`backend/server.js`) that records whether a company has been contacted.
Records live in a CSV file `contactos.csv` and, in the cached variant, in an
in-memory array `contactsCache`.  This file shallowly embeds the data model,
the CSV serialization/parsing pipeline (`csv-stringify` / `csv-parse` with
`columns: true, trim: true` and the `isContacted` cast), the startup header
repair, and the GET/POST request handlers, and proves properties about them.

Modelling conventions:
* JavaScript strings are Lean `String`s (lists of `Char`); unicode whitespace
  beyond the ASCII set is not modelled in `trim`.
* Request-body values are modelled by `JSValue` so that JavaScript truthiness
  (`!companyId` etc.) is faithful, including `0`, `false`, `null`, `""`.
* The file system is a value `Option String` (`none` = file absent); read and
  write errors are modelled where a claim needs them (the `writeOk` flag of
  `registerCached` models `fs.appendFileSync` throwing).
* `csv-parse` record-delimiter auto-detection is modelled as `'\n'` (the
  delimiter `csv-stringify` emits); a lone `'\r'` is treated as an ordinary
  character, and theorems about unquoted fields exclude `'\r'` explicitly.
-/

/-- One row of the ledger, as produced by `csv-parse` with `columns: true`
and the cast that turns the `isContacted` column into a boolean. -/
structure ContactRecord where
  companyId : String
  companyName : String
  gpgName : String
  timestamp : String
  isContacted : Bool
deriving DecidableEq, Repr

/-- JavaScript values that can appear in a parsed JSON request body field.
`undefined` is what destructuring yields for an absent field. -/
inductive JSValue where
  | undefined
  | null
  | str (s : String)
  | num (n : Int)
  | boolean (b : Bool)
deriving DecidableEq, Repr

/-- JavaScript truthiness, as used by `if (!companyId) ...` in the handlers:
`undefined`, `null`, `""`, `0` and `false` are falsy. -/
def jsTruthy : JSValue → Bool
  | .undefined => false
  | .null => false
  | .str s => !(s = "")
  | .num n => !(n = 0)
  | .boolean b => b

/-- JavaScript `toString` coercion, as used by `companyId.toString()`. -/
def jsToString : JSValue → String
  | .undefined => "undefined"
  | .null => "null"
  | .str s => s
  | .num n => toString n
  | .boolean b => cond b "true" "false"

/-- The destructured body of a POST `/api/contact` request:
`const { companyId, companyName, gpgName } = req.body`. -/
structure RequestBody where
  companyId : JSValue
  companyName : JSValue
  gpgName : JSValue
deriving DecidableEq, Repr

/-- The duplicate check of the POST handler:
`contacts.find(c => c.companyId === companyId.toString() && c.isContacted)`.
`Array.prototype.find` scans forward, so this returns the oldest match. -/
def findExisting (contacts : List ContactRecord) (companyId : String) :
    Option ContactRecord :=
  contacts.find? (fun c => c.companyId == companyId && c.isContacted)

/-- The lookup scan of the GET handler: the `for (let i = contacts.length - 1;
i >= 0; i--)` loop that walks the array from the end and stops at the first
record with matching `companyId` and truthy `isContacted`. -/
def latestActive (contacts : List ContactRecord) (companyId : String) :
    Option ContactRecord :=
  contacts.reverse.find? (fun c => c.companyId == companyId && c.isContacted)

/-- Observable outcome of the GET `/api/contact/:companyId` handler. -/
inductive LookupResult where
  | contacted (gpgName : String)
  | notContacted
  | invalidId
deriving DecidableEq, Repr

/-- The common tail of both GET handlers: report the record found by the
reverse scan, or `{ isContacted: false }` when none matches. -/
def lookupFromCache (contacts : List ContactRecord) (companyId : String) :
    LookupResult :=
  match latestActive contacts companyId with
  | some c => .contacted c.gpgName
  | none => .notContacted

/-- Observable outcome of the POST `/api/contact` handler. -/
inductive RegisterResult where
  | validationError (msg : String)
  | alreadyContacted (gpgName : String)
  | registered (gpgName : String)
deriving DecidableEq, Repr

/-- Count of active rows for a company: the records a scan may select. -/
def countActive (contacts : List ContactRecord) (companyId : String) : Nat :=
  (contacts.filter (fun c => c.companyId == companyId && c.isContacted)).length

/-- Whitespace trimmed by `csv-parse` around unquoted field values when the
`trim: true` option is set (space and horizontal tab). -/
def isCsvSpace (c : Char) : Bool := c = ' ' || c = '\t'

/-- Whitespace stripped by JavaScript `String.prototype.trim` (ASCII subset;
the handlers only ever call `.trim()` on file content). -/
def isJsSpace (c : Char) : Bool :=
  c = ' ' || c = '\t' || c = '\n' || c = '\r' || c = '\x0b' || c = '\x0c'

/-- Drop leading characters satisfying `p`. -/
def trimLeftBy (p : Char → Bool) (cs : List Char) : List Char :=
  cs.dropWhile p

/-- Drop trailing characters satisfying `p`. -/
def trimRightBy (p : Char → Bool) (cs : List Char) : List Char :=
  (cs.reverse.dropWhile p).reverse

/-- JavaScript `content.trim()` on the character list of a string. -/
def jsTrimC (cs : List Char) : List Char :=
  trimRightBy isJsSpace (trimLeftBy isJsSpace cs)

/-- JavaScript `content.trim()`. -/
def jsTrim (s : String) : String := String.mk (jsTrimC s.data)

/-- Characters that force `csv-stringify` to quote a field: the delimiter,
the quote character, and the record delimiter. -/
def needsQuoting (s : String) : Bool :=
  s.data.any (fun c => c = ',' || c = '"' || c = '\n')

/-- Double every quote character, as `csv-stringify` escapes quotes. -/
def escapeQuotes : List Char → List Char
  | [] => []
  | c :: cs => if c = '"' then '"' :: '"' :: escapeQuotes cs
               else c :: escapeQuotes cs

/-- Serialization of one field by `csv-stringify`: quoted (with doubled inner
quotes) exactly when the value contains a delimiter, quote or newline. -/
def encodeField (s : String) : List Char :=
  if needsQuoting s then '"' :: (escapeQuotes s.data ++ ['"']) else s.data

/-- Serialization of one row: fields joined by commas. -/
def encodeRow : List String → List Char
  | [] => []
  | [f] => encodeField f
  | f :: fs => encodeField f ++ ',' :: encodeRow fs

/-- Serialization of one CSV line by `stringify([row])`: the encoded row
followed by the record delimiter. -/
def stringifyRow (fields : List String) : String :=
  String.mk (encodeRow fields ++ ['\n'])

/-- The `csvHeaders` array of the source. -/
def csvHeaders : List String :=
  ["companyId", "companyName", "gpgName", "timestamp", "isContacted"]

/-- The header line written on initialization: `stringify([csvHeaders])`. -/
def headerLine : String := stringifyRow csvHeaders

/-- The string `csvHeaders.join(',')` used by the startup header check. -/
def expectedHeaderJoined : String :=
  "companyId,companyName,gpgName,timestamp,isContacted"

/-- Serialization of a record by the POST handler: `stringify([record],
{ header: false })` where the record's `isContacted` has been replaced by the
string literal `'true'` (the handlers only ever serialize active records and
always write the text `true` for the flag). -/
def serializeRecord (r : ContactRecord) : String :=
  stringifyRow [r.companyId, r.companyName, r.gpgName, r.timestamp, "true"]

/-- Fields whose serialized form survives the `trim: true` parse unchanged:
either the field contains a delimiter, quote or newline (so `csv-stringify`
quotes it and the parser preserves the quoted content verbatim), or it is
written unquoted, in which case it must carry no leading or trailing
space/tab (those would be trimmed away) and no carriage return (which the
record-delimiter handling of `csv-parse` may consume). -/
def safeField (f : String) : Bool :=
  needsQuoting f ||
    (decide (f.data.dropWhile isCsvSpace = f.data) &&
     decide (f.data.reverse.dropWhile isCsvSpace = f.data.reverse) &&
     !(f.data.any (fun c => c = '\r')))

/-- Parser mode of the CSV scanner: at the start of a field (skipping left
whitespace), inside an unquoted field, inside a quoted field, or after the
closing quote of a quoted field. -/
inductive CsvMode where
  | start
  | unq
  | quo
  | aft
deriving DecidableEq, Repr

/-- Character-level model of `csv-parse` with `trim: true` and
`skip_empty_lines: true`.  Accumulators: `ws` buffers pending whitespace
inside an unquoted field (flushed when a non-space follows, discarded at the
field end — this is `rtrim`), `field` is the current field reversed, `row`
the fields of the current record reversed, `rows` the finished records
reversed.  Returns `none` where `csv-parse` throws (a quote opening inside an
unquoted field, an unterminated quote, or junk after a closing quote). -/
def runCsv (mode : CsvMode) (ws field : List Char) (row : List String)
    (rows : List (List String)) : List Char → Option (List (List String))
  | [] =>
    match mode with
    | .quo => none
    | .start =>
      if row = [] then some rows.reverse
      else some ((("" :: row).reverse) :: rows).reverse
    | .unq => some (((String.mk field.reverse :: row).reverse) :: rows).reverse
    | .aft => some (((String.mk field.reverse :: row).reverse) :: rows).reverse
  | c :: cs =>
    match mode with
    | .start =>
      if isCsvSpace c then runCsv .start [] [] row rows cs
      else if c = '"' then runCsv .quo [] [] row rows cs
      else if c = ',' then runCsv .start [] [] ("" :: row) rows cs
      else if c = '\n' then
        if row = [] then runCsv .start [] [] [] rows cs
        else runCsv .start [] [] [] ((("" :: row).reverse) :: rows) cs
      else runCsv .unq [] [c] row rows cs
    | .unq =>
      if isCsvSpace c then runCsv .unq (c :: ws) field row rows cs
      else if c = ',' then
        runCsv .start [] [] (String.mk field.reverse :: row) rows cs
      else if c = '\n' then
        runCsv .start [] [] []
          (((String.mk field.reverse :: row).reverse) :: rows) cs
      else if c = '"' then none
      else runCsv .unq [] (c :: (ws ++ field)) row rows cs
    | .quo =>
      if c = '"' then runCsv .aft [] field row rows cs
      else runCsv .quo [] (c :: field) row rows cs
    | .aft =>
      if c = '"' then runCsv .quo [] ('"' :: field) row rows cs
      else if isCsvSpace c then runCsv .aft [] field row rows cs
      else if c = ',' then
        runCsv .start [] [] (String.mk field.reverse :: row) rows cs
      else if c = '\n' then
        runCsv .start [] [] []
          (((String.mk field.reverse :: row).reverse) :: rows) cs
      else none

/-- Full `csv-parse` call on (already trimmed) file content: rows of fields. -/
def parseCSV (cs : List Char) : Option (List (List String)) :=
  runCsv .start [] [] [] [] cs

/-- Lowercase conversion of one character, ASCII range (the `isContacted`
cast only ever distinguishes spellings of `true`). -/
def lowerChar (c : Char) : Char :=
  if 65 ≤ c.toNat ∧ c.toNat ≤ 90 then Char.ofNat (c.toNat + 32) else c

/-- JavaScript `value.toLowerCase()` (ASCII subset). -/
def jsToLowerCase (s : String) : String := String.mk (s.data.map lowerChar)

/-- Projection of a parsed row to a `ContactRecord` under `columns: true`:
each field is keyed by the column name of the actual header row, and the
`cast` option that maps the `isContacted` column through
`value.toLowerCase() === 'true'`.  A column absent from the header yields
`undefined` in the source, modelled as `""` (both are falsy and compare
unequal to every registered companyId). -/
def castRecord (header row : List String) : ContactRecord :=
  let get := fun (name : String) =>
    (((header.zip row).find? (fun p => p.1 == name)).map (fun p => p.2)).getD ""
  { companyId := get "companyId"
    companyName := get "companyName"
    gpgName := get "gpgName"
    timestamp := get "timestamp"
    isContacted := jsToLowerCase (get "isContacted") == "true" }

/-- Records produced by `csv-parse` with `columns: true`: the first row is
the header, the rest are data rows.  A row whose field count differs from the
header makes `csv-parse` throw, which the callers catch by returning `[]`. -/
def rowsToRecords : List (List String) → List ContactRecord
  | [] => []
  | header :: data =>
    if data.all (fun r => r.length == header.length)
    then data.map (castRecord header)
    else []

/-- The `readContactsFromCSV` / cache-refresh read path: a missing file or
empty (after `trim()`) content yields `[]`; otherwise the trimmed content is
parsed, any parse error being caught and turned into `[]`. -/
def readContactsFromCSV (file : Option String) : List ContactRecord :=
  match file with
  | none => []
  | some content =>
    let t := jsTrimC content.data
    if t = [] then []
    else
      match parseCSV t with
      | none => []
      | some rows => rowsToRecords rows

/-- JavaScript `s.startsWith(pre)`. -/
def startsWithStr (s pre : String) : Bool := pre.data.isPrefixOf s.data

/-- Everything before the first newline of a string. -/
def firstLine (s : String) : String :=
  String.mk (s.data.takeWhile (fun c => !(c = '\n')))

/-- Startup initialization of the backing file (top-level code of the basic
variant, identical to `ensureCsvExists` of the memory-first variant): create
the file with the header line when absent, and rewrite it to just the header
line when the trimmed content is empty or does not start with
`csvHeaders.join(',')`. -/
def ensureCsvExists (file : Option String) : Option String :=
  match file with
  | none => some headerLine
  | some raw =>
    let content := jsTrim raw
    if content = "" || !(startsWithStr content expectedHeaderJoined)
    then some headerLine
    else some raw

/-- The `ensureCsvExists` of the cached variant: creates the file with the
header line when absent or empty after trimming, and otherwise leaves the
content untouched (no header check in this variant). -/
def ensureCsvExistsCached (file : Option String) : Option String :=
  match file with
  | none => some headerLine
  | some raw => if jsTrim raw = "" then some headerLine else some raw

/-- The cache-refresh path of `loadContactsFromCSV` in the cached variant
(the path taken on `force` or when the TTL has expired): run
`ensureCsvExistsCached`, then read and parse the file into the cache.
Returns the new cache together with the possibly initialized file. -/
def loadContactsFromCSV (file : Option String) :
    List ContactRecord × Option String :=
  let f := ensureCsvExistsCached file
  (readContactsFromCSV f, f)

/-- GET `/api/contact/:companyId` of the basic variant: re-read the file on
every request, then reverse-scan for the most recent active record. -/
def lookupBasic (file : Option String) (companyId : String) : LookupResult :=
  lookupFromCache (readContactsFromCSV file) companyId

/-- Digit test for the JavaScript number grammar. -/
def isDigitC (c : Char) : Bool := 48 ≤ c.toNat && c.toNat ≤ 57

/-- Optional exponent part of a JavaScript decimal literal. -/
def expPart : List Char → Bool
  | [] => true
  | c :: cs =>
    (c = 'e' || c = 'E') &&
      (match cs with
       | [] => false
       | d :: ds =>
         if d = '+' || d = '-' then !(ds = []) && ds.all isDigitC
         else (d :: ds).all isDigitC)

/-- Decimal body of a JavaScript number: digits, optional fraction,
optional exponent; at least one digit in the mantissa. -/
def decimalBody (cs : List Char) : Bool :=
  let ip := cs.takeWhile isDigitC
  let r1 := cs.dropWhile isDigitC
  match r1 with
  | '.' :: r2 =>
    let fp := r2.takeWhile isDigitC
    let r3 := r2.dropWhile isDigitC
    (!(ip = []) || !(fp = [])) && expPart r3
  | _ => !(ip = []) && expPart r1

/-- Numeric literal after an optional sign: `Infinity` or a decimal. -/
def numericAfterSign (cs : List Char) : Bool :=
  cs = "Infinity".data || decimalBody cs

/-- Model of JavaScript `isNaN(s)` for a string argument: `Number(s)` is NaN
exactly when the trimmed string is nonempty and not a numeric literal.
Modelled from the decimal/Infinity grammar; the rarely used hex, octal and
binary literal forms are not modelled (no theorem depends on them). -/
def isNaNStr (s : String) : Bool :=
  let t := jsTrimC s.data
  if t = [] then false
  else
    match t with
    | c :: rest =>
      if c = '+' || c = '-' then !(numericAfterSign rest)
      else !(numericAfterSign t)
    | [] => true

/-- GET `/api/contact/:companyId` of the cached variant: rejects an empty or
non-numeric id with a 400 validation error, then reverse-scans the cache. -/
def lookupCached (contacts : List ContactRecord) (companyId : String) :
    LookupResult :=
  if companyId = "" || isNaNStr companyId then .invalidId
  else lookupFromCache contacts companyId

/-- Mutable state of the cached variant: the in-memory `contactsCache` and
the backing file. -/
structure StoreState where
  cache : List ContactRecord
  file : Option String
deriving DecidableEq, Repr

/-- POST `/api/contact` of the cached variant of `server.js`.  Validates the
three body fields by truthiness; runs the duplicate check (forward `find`)
against the cache; otherwise pushes the new record onto the cache and appends
its serialized line to the file.  `writeOk = false` models
`fs.appendFileSync` throwing: the inner catch only logs the error, so the
cache keeps the record, the file is unchanged, and the response is the same
unqualified 201 success.  The `loadContactsFromCSV()` call at the start is
modelled at its TTL-hit path (it returns the current cache unchanged); the
reload path is covered by the `loadContactsFromCSV` function above. -/
def registerCached (st : StoreState) (body : RequestBody) (timestamp : String)
    (writeOk : Bool) : StoreState × RegisterResult :=
  if !(jsTruthy body.companyId) then
    (st, .validationError "Falta ID de empresa")
  else if !(jsTruthy body.companyName) then
    (st, .validationError "Falta nombre de empresa")
  else if !(jsTruthy body.gpgName) then
    (st, .validationError "Falta nombre de contacto")
  else
    match findExisting st.cache (jsToString body.companyId) with
    | some existing => (st, .alreadyContacted existing.gpgName)
    | none =>
      let newRecord : ContactRecord :=
        { companyId := jsToString body.companyId
          companyName := jsToString body.companyName
          gpgName := jsToString body.gpgName
          timestamp := timestamp
          isContacted := true }
      let newFile :=
        if writeOk then some ((st.file.getD "") ++ serializeRecord newRecord)
        else st.file
      ({ cache := st.cache ++ [newRecord], file := newFile },
        .registered (jsToString body.gpgName))

/-- POST `/api/contact` of the basic variant of `server.js` (the file-backed
handler): one combined truthiness validation, duplicate check with a forward
`find` over the records re-read from the file, and on a new company an
`appendFileSync` of the serialized line.  The outer try/catch (500 on an
unexpected fault) is not modelled; this is the non-throwing path. -/
def registerBasic (file : Option String) (body : RequestBody)
    (timestamp : String) : Option String × RegisterResult :=
  if !(jsTruthy body.companyId) || !(jsTruthy body.companyName) ||
      !(jsTruthy body.gpgName) then
    (file, .validationError "Faltan datos (companyId, companyName, gpgName)")
  else
    match findExisting (readContactsFromCSV file) (jsToString body.companyId) with
    | some existing => (file, .alreadyContacted existing.gpgName)
    | none =>
      (some ((file.getD "") ++ serializeRecord
        { companyId := jsToString body.companyId
          companyName := jsToString body.companyName
          gpgName := jsToString body.gpgName
          timestamp := timestamp
          isContacted := true }),
        .registered (jsToString body.gpgName))

/-- The five cells the store writes for a record, in header order; the
`isContacted` cell is the literal text `true`.  `serializeRecord r` is by
definition `stringifyRow (rowFields r)`. -/
def rowFields (r : ContactRecord) : List String :=
  [r.companyId, r.companyName, r.gpgName, r.timestamp, "true"]

/-- File body produced by the store appending each record in order (one
`appendFileSync` of `serializeRecord` per register). -/
def serializeAll : List ContactRecord → String
  | [] => ""
  | r :: rs => serializeRecord r ++ serializeAll rs

/-- A canonical ledger file: the state of the backing file after
initialization wrote the header line and the store registered each record of
`rs` in order.  These are exactly the file states the store itself
produces. -/
def ledgerFile (rs : List ContactRecord) : String :=
  headerLine ++ serializeAll rs

/-- Records the store can have written whose serialized line parses back to
the record itself: all four text fields safe (see `safeField`) and the flag
active (the store writes the literal `true` for every row). -/
def safeRecord (r : ContactRecord) : Bool :=
  safeField r.companyId && safeField r.companyName && safeField r.gpgName &&
    safeField r.timestamp && r.isContacted

/-- Character form of the data-row section of a trimmed canonical ledger:
the encoded rows separated (not terminated) by newlines, as `content.trim()`
leaves them. -/
def encodeRowsSep : List ContactRecord → List Char
  | [] => []
  | [r] => encodeRow (rowFields r)
  | r :: rs => encodeRow (rowFields r) ++ '\n' :: encodeRowsSep rs

theorem find?_eq_head?_filter {α : Type} (p : α → Bool) (l : List α) :
    l.find? p = (l.filter p).head? := by
  induction l with
  | nil => rfl
  | cons a l ih =>
    by_cases h : p a
    · simp [List.find?, List.filter, h]
    · rw [List.find?_cons_of_neg _ h, List.filter_cons_of_neg]
      · exact ih
      · simp [h]

theorem latestActive_eq_head?_reverse_filter
    (contacts : List ContactRecord) (companyId : String) :
    latestActive contacts companyId =
      ((contacts.filter
        (fun c => c.companyId == companyId && c.isContacted)).reverse).head? := by
  unfold latestActive
  rw [find?_eq_head?_filter, List.filter_reverse]

/-- C5 counterexample: when the ledger holds two active rows for the same
companyId, register's forward `find` selects the oldest row while lookup's
reverse scan selects the newest, so the two report different contactor
names — the claim that they agree on the most recently appended record is
false on the code. -/
theorem dup_check_vs_lookup_scan_disagree :
    (findExisting
        [⟨"1", "A", "alice", "t1", true⟩, ⟨"1", "B", "bob", "t2", true⟩]
        "1").map ContactRecord.gpgName = some "alice" ∧
    (latestActive
        [⟨"1", "A", "alice", "t1", true⟩, ⟨"1", "B", "bob", "t2", true⟩]
        "1").map ContactRecord.gpgName = some "bob" ∧
    findExisting
        [⟨"1", "A", "alice", "t1", true⟩, ⟨"1", "B", "bob", "t2", true⟩]
        "1" ≠
      latestActive
        [⟨"1", "A", "alice", "t1", true⟩, ⟨"1", "B", "bob", "t2", true⟩]
        "1" := by decide

/-- C5 (amended): register's duplicate check (forward `find`) and lookup's
reverse scan select the same record whenever the cache holds at most one
active record for the companyId — in particular in every state the store
itself can produce; with several active rows they can disagree. -/
theorem dup_check_matches_lookup_scan_of_unique_active
    (contacts : List ContactRecord) (companyId : String)
    (h : countActive contacts companyId ≤ 1) :
    findExisting contacts companyId = latestActive contacts companyId := by
  unfold countActive at h
  unfold findExisting
  rw [find?_eq_head?_filter, latestActive_eq_head?_reverse_filter]
  cases hl : contacts.filter (fun c => c.companyId == companyId && c.isContacted) with
  | nil => simp
  | cons a t =>
    cases t with
    | nil => simp
    | cons b t2 =>
      rw [hl] at h
      simp at h

/-- C5 witness: a ledger with a single active row, where both scans return
that row. -/
theorem dup_check_matches_lookup_scan_witness :
    findExisting [⟨"1", "A", "alice", "t1", true⟩, ⟨"2", "B", "bob", "t2", true⟩] "1" =
      latestActive [⟨"1", "A", "alice", "t1", true⟩, ⟨"2", "B", "bob", "t2", true⟩] "1" :=
  dup_check_matches_lookup_scan_of_unique_active _ _ (by decide)

/-- C6: a register request with any of the three required body fields empty
or absent is rejected with a 400 validation error and has no side effects:
neither the cache nor the backing file changes. -/
theorem register_missing_field_no_side_effects
    (st : StoreState) (body : RequestBody) (ts : String) (w : Bool)
    (h : jsTruthy body.companyId = false ∨ jsTruthy body.companyName = false ∨
         jsTruthy body.gpgName = false) :
    (registerCached st body ts w).1 = st ∧
    ∃ msg, (registerCached st body ts w).2 = .validationError msg := by
  rcases h with h | h | h
  · simp [registerCached, h]
  · by_cases h1 : jsTruthy body.companyId <;> simp [registerCached, h, h1]
  · by_cases h1 : jsTruthy body.companyId <;>
      by_cases h2 : jsTruthy body.companyName <;>
      simp [registerCached, h, h1, h2]

/-- C6 witness: an empty companyId is rejected and the state is unchanged. -/
theorem register_missing_field_no_side_effects_witness :
    (registerCached ⟨[], some "x"⟩ ⟨.str "", .str "Acme", .str "J"⟩ "t" true).1 =
      ⟨[], some "x"⟩ ∧
    ∃ msg,
      (registerCached ⟨[], some "x"⟩ ⟨.str "", .str "Acme", .str "J"⟩ "t" true).2 =
        .validationError msg :=
  register_missing_field_no_side_effects _ _ _ _ (Or.inl (by decide))

/-- C10: presence of a body field is decided by JavaScript truthiness, so a
field that is present but falsy (the number `0`, `false`, `null`, the empty
string) is rejected exactly like an absent (`undefined`) field, with the
corresponding missing-field validation error and no state change. -/
theorem falsy_field_rejected_as_missing :
    (∀ (st : StoreState) (ts : String) (w : Bool) (v b c : JSValue),
       jsTruthy v = false →
       registerCached st ⟨v, b, c⟩ ts w = registerCached st ⟨.undefined, b, c⟩ ts w ∧
       (registerCached st ⟨v, b, c⟩ ts w).2 = .validationError "Falta ID de empresa") ∧
    (∀ (st : StoreState) (ts : String) (w : Bool) (a v c : JSValue),
       jsTruthy v = false →
       registerCached st ⟨a, v, c⟩ ts w = registerCached st ⟨a, .undefined, c⟩ ts w) ∧
    (∀ (st : StoreState) (ts : String) (w : Bool) (a b v : JSValue),
       jsTruthy v = false →
       registerCached st ⟨a, b, v⟩ ts w = registerCached st ⟨a, b, .undefined⟩ ts w) := by
  have hu : jsTruthy JSValue.undefined = false := rfl
  refine ⟨?_, ?_, ?_⟩
  · intro st ts w v b c h
    constructor <;> simp [registerCached, h, hu]
  · intro st ts w a v c h
    by_cases h1 : jsTruthy a <;> simp [registerCached, h, h1, hu]
  · intro st ts w a b v h
    by_cases h1 : jsTruthy a <;> by_cases h2 : jsTruthy b <;>
      simp [registerCached, h, h1, h2, hu]

/-- C10 witness: companyId given as the number `0` is rejected exactly like
an absent companyId. -/
theorem falsy_field_rejected_as_missing_witness :
    registerCached ⟨[], none⟩ ⟨.num 0, .str "Acme", .str "J"⟩ "t" true =
      registerCached ⟨[], none⟩ ⟨.undefined, .str "Acme", .str "J"⟩ "t" true ∧
    (registerCached ⟨[], none⟩ ⟨.num 0, .str "Acme", .str "J"⟩ "t" true).2 =
      .validationError "Falta ID de empresa" :=
  falsy_field_rejected_as_missing.1 ⟨[], none⟩ "t" true (.num 0) (.str "Acme")
    (.str "J") (by decide)

theorem findExisting_eq_none_of_no_active
    (contacts : List ContactRecord) (cid : String)
    (h : ∀ r ∈ contacts, ¬(r.companyId = cid ∧ r.isContacted = true)) :
    findExisting contacts cid = none := by
  unfold findExisting
  rw [List.find?_eq_none]
  intro r hr
  have hh := h r hr
  simp only [Bool.and_eq_true, beq_iff_eq]
  tauto

theorem latestActive_append_single
    (cache : List ContactRecord) (r : ContactRecord) (cid : String)
    (hid : r.companyId = cid) (hact : r.isContacted = true) :
    latestActive (cache ++ [r]) cid = some r := by
  unfold latestActive
  rw [List.reverse_append]
  simp [hid, hact]

/-- C1 counterexample: in a store state that already holds an active record
for company 7 (contactor Olga), registering twice with contactors alice then
bob makes the second register report Olga — not alice, the first of the two
registered contactor names, as the claim states for every store state. -/
theorem register_twice_preexisting_reports_existing_name :
    (registerCached
        (registerCached ⟨[⟨"7", "Old Co", "Olga", "t0", true⟩], some ""⟩
            ⟨.str "7", .str "Acme", .str "alice"⟩ "t1" true).1
        ⟨.str "7", .str "Acme", .str "bob"⟩ "t2" true).2 =
      RegisterResult.alreadyContacted "Olga" ∧
    ¬ (RegisterResult.alreadyContacted "Olga" =
        RegisterResult.alreadyContacted "alice") := by decide

/-- C1 (amended): starting from a store state with no active record for the
companyId, registering twice with the same companyId (different contactor the
second time) leaves exactly one active record for that companyId, the second
response reports the first contactor name, and a subsequent lookup reports
the first contactor name as well. -/
theorem register_twice_single_active_first_wins
    (cache : List ContactRecord) (file : Option String) (ts1 ts2 : String)
    (w1 w2 : Bool) (cid cname1 gname1 cname2 gname2 : String)
    (hcid : cid ≠ "") (hcname1 : cname1 ≠ "") (hgname1 : gname1 ≠ "")
    (hcname2 : cname2 ≠ "") (hgname2 : gname2 ≠ "")
    (hno : ∀ r ∈ cache, ¬(r.companyId = cid ∧ r.isContacted = true)) :
    countActive
      ((registerCached
          (registerCached ⟨cache, file⟩ ⟨.str cid, .str cname1, .str gname1⟩ ts1 w1).1
          ⟨.str cid, .str cname2, .str gname2⟩ ts2 w2).1).cache cid = 1 ∧
    (registerCached
        (registerCached ⟨cache, file⟩ ⟨.str cid, .str cname1, .str gname1⟩ ts1 w1).1
        ⟨.str cid, .str cname2, .str gname2⟩ ts2 w2).2 =
      .alreadyContacted gname1 ∧
    lookupFromCache
      ((registerCached
          (registerCached ⟨cache, file⟩ ⟨.str cid, .str cname1, .str gname1⟩ ts1 w1).1
          ⟨.str cid, .str cname2, .str gname2⟩ ts2 w2).1).cache cid =
      .contacted gname1 := by
  have h1 : jsTruthy (JSValue.str cid) = true := by simp [jsTruthy, hcid]
  have h2 : jsTruthy (JSValue.str cname1) = true := by simp [jsTruthy, hcname1]
  have h3 : jsTruthy (JSValue.str gname1) = true := by simp [jsTruthy, hgname1]
  have h4 : jsTruthy (JSValue.str cname2) = true := by simp [jsTruthy, hcname2]
  have h5 : jsTruthy (JSValue.str gname2) = true := by simp [jsTruthy, hgname2]
  have hfind1 : findExisting cache cid = none :=
    findExisting_eq_none_of_no_active _ _ hno
  have hfind2 :
      findExisting (cache ++ [⟨cid, cname1, gname1, ts1, true⟩]) cid =
        some ⟨cid, cname1, gname1, ts1, true⟩ := by
    unfold findExisting
    rw [List.find?_append]
    unfold findExisting at hfind1
    rw [hfind1]
    simp
  have hfilter :
      cache.filter (fun c => c.companyId == cid && c.isContacted) = [] := by
    rw [List.filter_eq_nil_iff]
    intro r hr
    have hh := hno r hr
    simp only [Bool.and_eq_true, beq_iff_eq]
    tauto
  refine ⟨?_, ?_, ?_⟩
  · simp only [registerCached, h1, h2, h3, h4, h5, jsToString, hfind1, hfind2,
      Bool.not_true, Bool.false_eq_true, if_false]
    unfold countActive
    rw [List.filter_append, hfilter]
    simp
  · simp only [registerCached, h1, h2, h3, h4, h5, jsToString, hfind1, hfind2,
      Bool.not_true, Bool.false_eq_true, if_false]
  · simp only [registerCached, h1, h2, h3, h4, h5, jsToString, hfind1, hfind2,
      Bool.not_true, Bool.false_eq_true, if_false]
    rw [lookupFromCache,
      latestActive_append_single cache ⟨cid, cname1, gname1, ts1, true⟩ cid rfl rfl]

/-- C1 witness: a fresh store, two registers for company 42 with contactors
J. Smith then A. Jones; one active record remains and both reports name
J. Smith. -/
theorem register_twice_single_active_first_wins_witness :
    countActive
      ((registerCached
          (registerCached ⟨[], some ""⟩
            ⟨.str "42", .str "Acme", .str "J. Smith"⟩ "t1" true).1
          ⟨.str "42", .str "Acme", .str "A. Jones"⟩ "t2" true).1).cache "42" = 1 ∧
    (registerCached
        (registerCached ⟨[], some ""⟩
          ⟨.str "42", .str "Acme", .str "J. Smith"⟩ "t1" true).1
        ⟨.str "42", .str "Acme", .str "A. Jones"⟩ "t2" true).2 =
      .alreadyContacted "J. Smith" ∧
    lookupFromCache
      ((registerCached
          (registerCached ⟨[], some ""⟩
            ⟨.str "42", .str "Acme", .str "J. Smith"⟩ "t1" true).1
          ⟨.str "42", .str "Acme", .str "A. Jones"⟩ "t2" true).1).cache "42" =
      .contacted "J. Smith" :=
  register_twice_single_active_first_wins _ _ _ _ _ _ _ _ _ _ _
    (by decide) (by decide) (by decide) (by decide) (by decide) (by simp)

/-- C3 (evidence for the code bug): when the disk append fails
(`writeOk = false`), the cached variant's register still answers the plain
201 success response with no warning (the model's `RegisterResult` has no
warning variant because the code path returns the same unqualified body
either way), yet the record only exists in the cache: the file is unchanged
and the next reload from disk comes back without the record. -/
theorem write_failure_reports_plain_success :
    (registerCached ⟨[], some headerLine⟩
        ⟨.str "42", .str "Acme Corp", .str "J. Smith"⟩
        "2024-01-01T00:00:00.000Z" false).2 = .registered "J. Smith" ∧
    ((registerCached ⟨[], some headerLine⟩
        ⟨.str "42", .str "Acme Corp", .str "J. Smith"⟩
        "2024-01-01T00:00:00.000Z" false).1).cache =
      [⟨"42", "Acme Corp", "J. Smith", "2024-01-01T00:00:00.000Z", true⟩] ∧
    ((registerCached ⟨[], some headerLine⟩
        ⟨.str "42", .str "Acme Corp", .str "J. Smith"⟩
        "2024-01-01T00:00:00.000Z" false).1).file = some headerLine ∧
    readContactsFromCSV
      (((registerCached ⟨[], some headerLine⟩
          ⟨.str "42", .str "Acme Corp", .str "J. Smith"⟩
          "2024-01-01T00:00:00.000Z" false).1).file) = [] := by decide

theorem ensureCsvExistsCached_idem (file : Option String) :
    ensureCsvExistsCached (ensureCsvExistsCached file) =
      ensureCsvExistsCached file := by
  have hh : ¬(jsTrim headerLine = "") := by decide
  cases file with
  | none => simp [ensureCsvExistsCached, hh]
  | some raw =>
    by_cases h : jsTrim raw = ""
    · simp [ensureCsvExistsCached, h, hh]
    · simp [ensureCsvExistsCached, h]

/-- C4: reloading the cache from disk with no intervening writes is
idempotent and a pure function of the file content: a second
`loadContactsFromCSV` on the file left by the first produces the same file,
the same cache, and hence the identical lookup answer for every companyId. -/
theorem reload_preserves_lookup_answers (file : Option String) (cid : String) :
    (loadContactsFromCSV ((loadContactsFromCSV file).2)).1 =
      (loadContactsFromCSV file).1 ∧
    (loadContactsFromCSV ((loadContactsFromCSV file).2)).2 =
      (loadContactsFromCSV file).2 ∧
    lookupFromCache ((loadContactsFromCSV ((loadContactsFromCSV file).2)).1) cid =
      lookupFromCache ((loadContactsFromCSV file).1) cid := by
  unfold loadContactsFromCSV
  rw [ensureCsvExistsCached_idem]
  exact ⟨rfl, rfl, rfl⟩

theorem lookupFromCache_eq_notContacted_of_unregistered
    (contacts : List ContactRecord) (cid : String)
    (h : ∀ r ∈ contacts, r.companyId ≠ cid) :
    lookupFromCache contacts cid = .notContacted := by
  unfold lookupFromCache latestActive
  have hnone :
      contacts.reverse.find? (fun c => c.companyId == cid && c.isContacted) =
        none := by
    rw [List.find?_eq_none]
    intro r hr
    have hh := h r (List.mem_reverse.mp hr)
    simp only [Bool.and_eq_true, beq_iff_eq]
    tauto
  rw [hnone]

/-- C7 counterexample: the cached variant's GET handler rejects the
never-registered, non-numeric companyId `abc` with a 400 validation error
instead of answering `isContacted = false`, because of its
`isNaN(companyId)` guard. -/
theorem lookup_nonnumeric_unregistered_rejected :
    lookupCached [] "abc" = .invalidId ∧
    LookupResult.invalidId ≠ LookupResult.notContacted := by decide

/-- C7 (amended): a lookup for a companyId that was never registered answers
the normal negative result `isContacted = false` — unconditionally in the
basic variant (which treats the id as opaque text), and in the cached
variant only for ids that pass its numeric `isNaN` validation; a non-numeric
id is rejected there with a client error instead. -/
theorem lookup_unregistered_not_contacted :
    (∀ (file : Option String) (cid : String),
       (∀ r ∈ readContactsFromCSV file, r.companyId ≠ cid) →
       lookupBasic file cid = .notContacted) ∧
    (∀ (contacts : List ContactRecord) (cid : String),
       cid ≠ "" → isNaNStr cid = false →
       (∀ r ∈ contacts, r.companyId ≠ cid) →
       lookupCached contacts cid = .notContacted) := by
  constructor
  · intro file cid h
    unfold lookupBasic
    exact lookupFromCache_eq_notContacted_of_unregistered _ _ h
  · intro contacts cid hne hnan h
    unfold lookupCached
    rw [if_neg]
    · exact lookupFromCache_eq_notContacted_of_unregistered _ _ h
    · simp [hne, hnan]

/-- C7 witness: lookup of unregistered ids — `99` against a header-only
file in the basic variant, `42` against a one-record cache in the cached
variant — both answer `isContacted = false`. -/
theorem lookup_unregistered_not_contacted_witness :
    lookupBasic (some headerLine) "99" = .notContacted ∧
    lookupCached [⟨"7", "Old", "Olga", "t0", true⟩] "42" = .notContacted :=
  ⟨lookup_unregistered_not_contacted.1 (some headerLine) "99" (by decide),
   lookup_unregistered_not_contacted.2 [⟨"7", "Old", "Olga", "t0", true⟩] "42"
     (by decide) (by decide) (by decide)⟩

theorem isPrefixOf_takeWhile (p : Char → Bool) :
    ∀ (l cs : List Char), (∀ c ∈ l, p c = true) →
      l.isPrefixOf (cs.takeWhile p) = l.isPrefixOf cs
  | [], cs, _ => by simp [List.isPrefixOf]
  | a :: l, [], _ => by simp [List.takeWhile]
  | a :: l, c :: cs, h => by
    by_cases hpc : p c
    · rw [List.takeWhile_cons_of_pos hpc]
      simp only [List.isPrefixOf]
      rw [isPrefixOf_takeWhile p l cs (fun x hx => h x (List.mem_cons_of_mem _ hx))]
    · rw [List.takeWhile_cons_of_neg hpc]
      have ha : p a = true := h a (List.mem_cons_self a l)
      have hac : (a == c) = false := by
        by_cases hq : a = c
        · subst hq; exact absurd ha hpc
        · simp [hq]
      simp [List.isPrefixOf, hac]

/-- C9 counterexample: a file whose first line strictly extends the expected
header (so it does not match the header) passes the `startsWith` check of
the startup repair, is left completely untouched, and its data row survives —
the claim that every such file is rewritten to only the corrected header is
false on the code. -/
theorem header_extension_not_repaired :
    firstLine
        (jsTrim
          "companyId,companyName,gpgName,timestamp,isContactedZ\n1,Acme,J,t,true\n") ≠
      expectedHeaderJoined ∧
    ensureCsvExists
        (some
          "companyId,companyName,gpgName,timestamp,isContactedZ\n1,Acme,J,t,true\n") =
      some
        "companyId,companyName,gpgName,timestamp,isContactedZ\n1,Acme,J,t,true\n" ∧
    readContactsFromCSV
        (ensureCsvExists
          (some
            "companyId,companyName,gpgName,timestamp,isContactedZ\n1,Acme,J,t,true\n")) ≠
      [] := by decide

/-- C9 (amended): the startup repair rewrites an existing file to exactly the
corrected header line whenever the trimmed content's first line does not
start with `csvHeaders.join(',')` (in particular whenever it differs from the
header other than by extending it), and leaves the file untouched whenever
the trimmed first line starts with that text and the content is nonempty —
so a first line that strictly extends the header escapes the repair. -/
theorem header_repair_rewrites_iff_not_startswith (content : String) :
    (startsWithStr (firstLine (jsTrim content)) expectedHeaderJoined = false →
      ensureCsvExists (some content) = some headerLine) ∧
    (startsWithStr (firstLine (jsTrim content)) expectedHeaderJoined = true →
      ¬(jsTrim content = "") →
      ensureCsvExists (some content) = some content) := by
  have hb : startsWithStr (jsTrim content) expectedHeaderJoined =
      startsWithStr (firstLine (jsTrim content)) expectedHeaderJoined := by
    unfold startsWithStr firstLine
    rw [isPrefixOf_takeWhile _ _ _ (by decide)]
  constructor
  · intro h
    have h2 : startsWithStr (jsTrim content) expectedHeaderJoined = false := by
      rw [hb]; exact h
    simp [ensureCsvExists, h2]
  · intro h hne
    have h2 : startsWithStr (jsTrim content) expectedHeaderJoined = true := by
      rw [hb]; exact h
    simp [ensureCsvExists, h2, hne]

/-- C9 witness: a file with a garbage header is rewritten to just the header
line, and a well-formed file (header plus one data row) is left untouched. -/
theorem header_repair_rewrites_iff_not_startswith_witness :
    ensureCsvExists (some "garbage\n1,A,B,t,true\n") = some headerLine ∧
    ensureCsvExists
        (some "companyId,companyName,gpgName,timestamp,isContacted\n1,A,B,t,true\n") =
      some "companyId,companyName,gpgName,timestamp,isContacted\n1,A,B,t,true\n" :=
  ⟨(header_repair_rewrites_iff_not_startswith "garbage\n1,A,B,t,true\n").1
      (by decide),
   (header_repair_rewrites_iff_not_startswith
        "companyId,companyName,gpgName,timestamp,isContacted\n1,A,B,t,true\n").2
      (by decide) (by decide)⟩

theorem data_append (s t : String) : (s ++ t).data = s.data ++ t.data := rfl

theorem mk_data (s : String) : String.mk s.data = s := rfl

theorem trimRightBy_append_all (p : Char → Bool) (a s : List Char)
    (h : ∀ c ∈ s, p c = true) : trimRightBy p (a ++ s) = trimRightBy p a := by
  unfold trimRightBy
  rw [List.reverse_append, List.dropWhile_append_of_pos]
  intro c hc
  exact h c (List.mem_reverse.mp hc)

theorem trimRightBy_append_last (p : Char → Bool) (l : List Char) (c : Char)
    (h : p c = false) : trimRightBy p (l ++ [c]) = l ++ [c] := by
  unfold trimRightBy
  rw [List.reverse_append]
  simp [List.dropWhile_cons, h]

theorem trimRightBy_append_of_stable (p : Char → Bool) (l₁ l₂ : List Char)
    (h2 : l₂ ≠ []) (hs : trimRightBy p l₂ = l₂) :
    trimRightBy p (l₁ ++ l₂) = l₁ ++ l₂ := by
  unfold trimRightBy at hs ⊢
  have hs2 : l₂.reverse.dropWhile p = l₂.reverse := by
    have := congrArg List.reverse hs
    simpa using this
  cases hr : l₂.reverse with
  | nil => exact absurd (by simpa using hr) h2
  | cons c t =>
    have hpc : p c = false := by
      rw [hr] at hs2
      by_cases hq : p c
      · rw [List.dropWhile_cons_of_pos hq] at hs2
        have hlen := congrArg List.length hs2
        have hle := (List.dropWhile_sublist (l := t) p).length_le
        simp at hlen
        omega
      · simpa using hq
    rw [List.reverse_append, hr, List.cons_append,
      List.dropWhile_cons_of_neg (by simp [hpc])]
    rw [← List.cons_append, ← hr, ← List.reverse_append]
    simp

theorem head_not_of_dropWhile_eq_self (p : Char → Bool) (c : Char)
    (cs : List Char) (h : (c :: cs).dropWhile p = c :: cs) : p c = false := by
  by_cases hq : p c
  · rw [List.dropWhile_cons_of_pos hq] at h
    have hlen := congrArg List.length h
    have hle := (List.dropWhile_sublist (l := cs) p).length_le
    simp at hlen
    omega
  · simpa using hq

theorem runCsv_quoted (v : List Char) :
    ∀ (rest field : List Char) (row : List String) (rows : List (List String)),
      runCsv .quo [] field row rows (escapeQuotes v ++ '"' :: rest) =
        runCsv .aft [] (v.reverse ++ field) row rows rest := by
  induction v with
  | nil =>
    intro rest field row rows
    simp [escapeQuotes, runCsv]
  | cons c v ih =>
    intro rest field row rows
    by_cases hq : c = '"'
    · subst hq
      rw [show escapeQuotes ('"' :: v) = '"' :: '"' :: escapeQuotes v from by
        simp [escapeQuotes]]
      rw [List.cons_append, List.cons_append]
      rw [show runCsv .quo [] field row rows
            ('"' :: '"' :: (escapeQuotes v ++ '"' :: rest)) =
          runCsv .quo [] ('"' :: field) row rows (escapeQuotes v ++ '"' :: rest)
        from by simp [runCsv]]
      rw [ih rest ('"' :: field) row rows]
      simp
    · rw [show escapeQuotes (c :: v) = c :: escapeQuotes v from by
        simp [escapeQuotes, hq]]
      rw [List.cons_append]
      rw [show runCsv .quo [] field row rows (c :: (escapeQuotes v ++ '"' :: rest)) =
          runCsv .quo [] (c :: field) row rows (escapeQuotes v ++ '"' :: rest)
        from by simp [runCsv, hq]]
      rw [ih rest (c :: field) row rows]
      simp

theorem runCsv_unq_comma (w : List Char) :
    ∀ (ws field : List Char) (row : List String) (rows : List (List String))
      (rest : List Char),
      (∀ c ∈ w, ¬(c = ',') ∧ ¬(c = '\n') ∧ ¬(c = '"')) →
      (∀ c ∈ ws, isCsvSpace c = true) →
      trimRightBy isCsvSpace field.reverse = field.reverse →
      runCsv .unq ws field row rows (w ++ ',' :: rest) =
        runCsv .start [] []
          (String.mk (trimRightBy isCsvSpace (field.reverse ++ ws.reverse ++ w)) :: row)
          rows rest := by
  induction w with
  | nil =>
    intro ws field row rows rest _ hws hf
    rw [List.nil_append]
    rw [show runCsv .unq ws field row rows (',' :: rest) =
        runCsv .start [] [] (String.mk field.reverse :: row) rows rest from by
      simp [runCsv, isCsvSpace]]
    rw [List.append_nil,
      trimRightBy_append_all _ _ _ (fun c hc => hws c (List.mem_reverse.mp hc)),
      hf]
  | cons c w ih =>
    intro ws field row rows rest hw hws hf
    have hc := hw c (List.mem_cons_self c w)
    have hwt : ∀ x ∈ w, ¬(x = ',') ∧ ¬(x = '\n') ∧ ¬(x = '"') :=
      fun x hx => hw x (List.mem_cons_of_mem _ hx)
    rw [List.cons_append]
    by_cases hsp : isCsvSpace c
    · rw [show runCsv .unq ws field row rows (c :: (w ++ ',' :: rest)) =
          runCsv .unq (c :: ws) field row rows (w ++ ',' :: rest) from by
        simp [runCsv, hsp]]
      rw [ih (c :: ws) field row rows rest hwt
        (by intro x hx
            rcases List.mem_cons.mp hx with h | h
            · subst h; exact hsp
            · exact hws x h) hf]
      congr 2
      simp
    · rw [show runCsv .unq ws field row rows (c :: (w ++ ',' :: rest)) =
          runCsv .unq [] (c :: (ws ++ field)) row rows (w ++ ',' :: rest) from by
        simp [runCsv, hsp, hc.1, hc.2.1, hc.2.2]]
      rw [ih [] (c :: (ws ++ field)) row rows rest hwt (by simp)
        (by rw [show (c :: (ws ++ field)).reverse =
              (ws ++ field).reverse ++ [c] from by simp]
            exact trimRightBy_append_last _ _ _ (by simpa using hsp))]
      congr 2
      simp

theorem runCsv_unq_newline (w : List Char) :
    ∀ (ws field : List Char) (row : List String) (rows : List (List String))
      (rest : List Char),
      (∀ c ∈ w, ¬(c = ',') ∧ ¬(c = '\n') ∧ ¬(c = '"')) →
      (∀ c ∈ ws, isCsvSpace c = true) →
      trimRightBy isCsvSpace field.reverse = field.reverse →
      runCsv .unq ws field row rows (w ++ '\n' :: rest) =
        runCsv .start [] [] []
          (((String.mk (trimRightBy isCsvSpace (field.reverse ++ ws.reverse ++ w)) ::
              row).reverse) :: rows) rest := by
  induction w with
  | nil =>
    intro ws field row rows rest _ hws hf
    rw [List.nil_append]
    rw [show runCsv .unq ws field row rows ('\n' :: rest) =
        runCsv .start [] [] [] (((String.mk field.reverse :: row).reverse) :: rows)
          rest from by simp [runCsv, isCsvSpace]]
    rw [List.append_nil,
      trimRightBy_append_all _ _ _ (fun c hc => hws c (List.mem_reverse.mp hc)),
      hf]
  | cons c w ih =>
    intro ws field row rows rest hw hws hf
    have hc := hw c (List.mem_cons_self c w)
    have hwt : ∀ x ∈ w, ¬(x = ',') ∧ ¬(x = '\n') ∧ ¬(x = '"') :=
      fun x hx => hw x (List.mem_cons_of_mem _ hx)
    rw [List.cons_append]
    by_cases hsp : isCsvSpace c
    · rw [show runCsv .unq ws field row rows (c :: (w ++ '\n' :: rest)) =
          runCsv .unq (c :: ws) field row rows (w ++ '\n' :: rest) from by
        simp [runCsv, hsp]]
      rw [ih (c :: ws) field row rows rest hwt
        (by intro x hx
            rcases List.mem_cons.mp hx with h | h
            · subst h; exact hsp
            · exact hws x h) hf]
      congr 4
      simp
    · rw [show runCsv .unq ws field row rows (c :: (w ++ '\n' :: rest)) =
          runCsv .unq [] (c :: (ws ++ field)) row rows (w ++ '\n' :: rest) from by
        simp [runCsv, hsp, hc.1, hc.2.1, hc.2.2]]
      rw [ih [] (c :: (ws ++ field)) row rows rest hwt (by simp)
        (by rw [show (c :: (ws ++ field)).reverse =
              (ws ++ field).reverse ++ [c] from by simp]
            exact trimRightBy_append_last _ _ _ (by simpa using hsp))]
      congr 4
      simp

theorem runCsv_unq_end (w : List Char) :
    ∀ (ws field : List Char) (row : List String) (rows : List (List String)),
      (∀ c ∈ w, ¬(c = ',') ∧ ¬(c = '\n') ∧ ¬(c = '"')) →
      (∀ c ∈ ws, isCsvSpace c = true) →
      trimRightBy isCsvSpace field.reverse = field.reverse →
      runCsv .unq ws field row rows w =
        some ((((String.mk (trimRightBy isCsvSpace
            (field.reverse ++ ws.reverse ++ w)) :: row).reverse) :: rows).reverse) := by
  induction w with
  | nil =>
    intro ws field row rows _ hws hf
    rw [show runCsv .unq ws field row rows [] =
        some (((String.mk field.reverse :: row).reverse) :: rows).reverse from by
      simp [runCsv]]
    rw [List.append_nil,
      trimRightBy_append_all _ _ _ (fun c hc => hws c (List.mem_reverse.mp hc)),
      hf]
  | cons c w ih =>
    intro ws field row rows hw hws hf
    have hc := hw c (List.mem_cons_self c w)
    have hwt : ∀ x ∈ w, ¬(x = ',') ∧ ¬(x = '\n') ∧ ¬(x = '"') :=
      fun x hx => hw x (List.mem_cons_of_mem _ hx)
    by_cases hsp : isCsvSpace c
    · rw [show runCsv .unq ws field row rows (c :: w) =
          runCsv .unq (c :: ws) field row rows w from by simp [runCsv, hsp]]
      rw [ih (c :: ws) field row rows hwt
        (by intro x hx
            rcases List.mem_cons.mp hx with h | h
            · subst h; exact hsp
            · exact hws x h) hf]
      congr 5
      simp
    · rw [show runCsv .unq ws field row rows (c :: w) =
          runCsv .unq [] (c :: (ws ++ field)) row rows w from by
        simp [runCsv, hsp, hc.1, hc.2.1, hc.2.2]]
      rw [ih [] (c :: (ws ++ field)) row rows hwt (by simp)
        (by rw [show (c :: (ws ++ field)).reverse =
              (ws ++ field).reverse ++ [c] from by simp]
            exact trimRightBy_append_last _ _ _ (by simpa using hsp))]
      congr 5
      simp

theorem no_specials_of_not_needsQuoting (f : String)
    (h : needsQuoting f = false) :
    ∀ c ∈ f.data, ¬(c = ',') ∧ ¬(c = '\n') ∧ ¬(c = '"') := by
  intro c hc
  unfold needsQuoting at h
  rw [List.any_eq_false] at h
  have hh := h c hc
  simp at hh
  tauto

theorem safeField_unquoted_stable (f : String) (hf : safeField f = true)
    (hq : needsQuoting f = false) :
    f.data.dropWhile isCsvSpace = f.data ∧
    trimRightBy isCsvSpace f.data = f.data := by
  unfold safeField at hf
  rw [hq] at hf
  simp only [Bool.false_or, Bool.and_eq_true, decide_eq_true_eq] at hf
  obtain ⟨⟨h1, h2⟩, _⟩ := hf
  refine ⟨h1, ?_⟩
  unfold trimRightBy
  rw [h2, List.reverse_reverse]

theorem runCsv_field_comma (f : String) (hf : safeField f = true)
    (row : List String) (rows : List (List String)) (rest : List Char) :
    runCsv .start [] [] row rows (encodeField f ++ ',' :: rest) =
      runCsv .start [] [] (f :: row) rows rest := by
  by_cases hq : needsQuoting f
  · rw [show encodeField f = '"' :: (escapeQuotes f.data ++ ['"']) from by
      simp [encodeField, hq]]
    rw [List.cons_append, List.append_assoc]
    rw [show ['"'] ++ ',' :: rest = '"' :: ',' :: rest from rfl]
    rw [show runCsv .start [] [] row rows
          ('"' :: (escapeQuotes f.data ++ '"' :: ',' :: rest)) =
        runCsv .quo [] [] row rows (escapeQuotes f.data ++ '"' :: ',' :: rest)
      from by simp [runCsv, isCsvSpace]]
    rw [runCsv_quoted f.data (',' :: rest) [] row rows]
    rw [show runCsv .aft [] (f.data.reverse ++ []) row rows (',' :: rest) =
        runCsv .start [] [] (String.mk (f.data.reverse ++ []).reverse :: row)
          rows rest from by simp [runCsv, isCsvSpace]]
    simp [mk_data]
  · have hqf : needsQuoting f = false := by simpa using hq
    have hcomp := safeField_unquoted_stable f hf hqf
    have hspec := no_specials_of_not_needsQuoting f hqf
    rw [show encodeField f = f.data from by simp [encodeField, hqf]]
    cases hd : f.data with
    | nil =>
      have hfe : f = "" := by
        cases f with
        | mk l => simp at hd; subst hd; rfl
      subst hfe
      simp [runCsv, isCsvSpace]
    | cons c cs =>
      have hcs : isCsvSpace c = false := by
        apply head_not_of_dropWhile_eq_self isCsvSpace c cs
        rw [← hd]
        exact hcomp.1
      have hcspec := hspec c (by rw [hd]; exact List.mem_cons_self c cs)
      rw [List.cons_append]
      rw [show runCsv .start [] [] row rows (c :: (cs ++ ',' :: rest)) =
          runCsv .unq [] [c] row rows (cs ++ ',' :: rest) from by
        simp [runCsv, hcs, hcspec.1, hcspec.2.1, hcspec.2.2]]
      rw [runCsv_unq_comma cs [] [c] row rows rest
        (fun x hx => hspec x (by rw [hd]; exact List.mem_cons_of_mem _ hx))
        (by simp)
        (by simp [trimRightBy, List.dropWhile_cons, hcs])]
      have hval : trimRightBy isCsvSpace
          ([c].reverse ++ ([] : List Char).reverse ++ cs) = f.data := by
        have he : [c].reverse ++ ([] : List Char).reverse ++ cs = c :: cs := by
          simp
        rw [he, ← hd]
        exact hcomp.2
      rw [hval, mk_data]

theorem runCsv_field_newline (f : String) (hf : safeField f = true)
    (row : List String) (rows : List (List String)) (rest : List Char)
    (hrow : f = "" → row ≠ []) :
    runCsv .start [] [] row rows (encodeField f ++ '\n' :: rest) =
      runCsv .start [] [] [] (((f :: row).reverse) :: rows) rest := by
  by_cases hq : needsQuoting f
  · rw [show encodeField f = '"' :: (escapeQuotes f.data ++ ['"']) from by
      simp [encodeField, hq]]
    rw [List.cons_append, List.append_assoc]
    rw [show ['"'] ++ '\n' :: rest = '"' :: '\n' :: rest from rfl]
    rw [show runCsv .start [] [] row rows
          ('"' :: (escapeQuotes f.data ++ '"' :: '\n' :: rest)) =
        runCsv .quo [] [] row rows (escapeQuotes f.data ++ '"' :: '\n' :: rest)
      from by simp [runCsv, isCsvSpace]]
    rw [runCsv_quoted f.data ('\n' :: rest) [] row rows]
    rw [show runCsv .aft [] (f.data.reverse ++ []) row rows ('\n' :: rest) =
        runCsv .start [] [] []
          (((String.mk (f.data.reverse ++ []).reverse :: row).reverse) :: rows)
          rest from by simp [runCsv, isCsvSpace]]
    simp [mk_data]
  · have hqf : needsQuoting f = false := by simpa using hq
    have hcomp := safeField_unquoted_stable f hf hqf
    have hspec := no_specials_of_not_needsQuoting f hqf
    rw [show encodeField f = f.data from by simp [encodeField, hqf]]
    cases hd : f.data with
    | nil =>
      have hfe : f = "" := by
        cases f with
        | mk l => simp at hd; subst hd; rfl
      subst hfe
      have hne : ¬(row = []) := hrow rfl
      simp [runCsv, isCsvSpace, hne]
    | cons c cs =>
      have hcs : isCsvSpace c = false := by
        apply head_not_of_dropWhile_eq_self isCsvSpace c cs
        rw [← hd]
        exact hcomp.1
      have hcspec := hspec c (by rw [hd]; exact List.mem_cons_self c cs)
      rw [List.cons_append]
      rw [show runCsv .start [] [] row rows (c :: (cs ++ '\n' :: rest)) =
          runCsv .unq [] [c] row rows (cs ++ '\n' :: rest) from by
        simp [runCsv, hcs, hcspec.1, hcspec.2.1, hcspec.2.2]]
      rw [runCsv_unq_newline cs [] [c] row rows rest
        (fun x hx => hspec x (by rw [hd]; exact List.mem_cons_of_mem _ hx))
        (by simp)
        (by simp [trimRightBy, List.dropWhile_cons, hcs])]
      have hval : trimRightBy isCsvSpace
          ([c].reverse ++ ([] : List Char).reverse ++ cs) = f.data := by
        have he : [c].reverse ++ ([] : List Char).reverse ++ cs = c :: cs := by
          simp
        rw [he, ← hd]
        exact hcomp.2
      rw [hval, mk_data]

theorem runCsv_field_end (f : String) (hf : safeField f = true)
    (row : List String) (rows : List (List String))
    (hrow : f = "" → row ≠ []) :
    runCsv .start [] [] row rows (encodeField f) =
      some ((((f :: row).reverse) :: rows).reverse) := by
  by_cases hq : needsQuoting f
  · rw [show encodeField f = '"' :: (escapeQuotes f.data ++ ['"']) from by
      simp [encodeField, hq]]
    rw [show ('"' : Char) :: (escapeQuotes f.data ++ ['"']) =
        '"' :: (escapeQuotes f.data ++ '"' :: []) from rfl]
    rw [show runCsv .start [] [] row rows
          ('"' :: (escapeQuotes f.data ++ '"' :: [])) =
        runCsv .quo [] [] row rows (escapeQuotes f.data ++ '"' :: [])
      from by simp [runCsv, isCsvSpace]]
    rw [runCsv_quoted f.data [] [] row rows]
    rw [show runCsv .aft [] (f.data.reverse ++ []) row rows [] =
        some (((String.mk (f.data.reverse ++ []).reverse :: row).reverse) ::
          rows).reverse from by simp [runCsv]]
    simp [mk_data]
  · have hqf : needsQuoting f = false := by simpa using hq
    have hcomp := safeField_unquoted_stable f hf hqf
    have hspec := no_specials_of_not_needsQuoting f hqf
    rw [show encodeField f = f.data from by simp [encodeField, hqf]]
    cases hd : f.data with
    | nil =>
      have hfe : f = "" := by
        cases f with
        | mk l => simp at hd; subst hd; rfl
      subst hfe
      have hne : ¬(row = []) := hrow rfl
      simp [runCsv, hne]
    | cons c cs =>
      have hcs : isCsvSpace c = false := by
        apply head_not_of_dropWhile_eq_self isCsvSpace c cs
        rw [← hd]
        exact hcomp.1
      have hcspec := hspec c (by rw [hd]; exact List.mem_cons_self c cs)
      rw [show runCsv .start [] [] row rows (c :: cs) =
          runCsv .unq [] [c] row rows cs from by
        simp [runCsv, hcs, hcspec.1, hcspec.2.1, hcspec.2.2]]
      rw [runCsv_unq_end cs [] [c] row rows
        (fun x hx => hspec x (by rw [hd]; exact List.mem_cons_of_mem _ hx))
        (by simp)
        (by simp [trimRightBy, List.dropWhile_cons, hcs])]
      have hval : trimRightBy isCsvSpace
          ([c].reverse ++ ([] : List Char).reverse ++ cs) = f.data := by
        have he : [c].reverse ++ ([] : List Char).reverse ++ cs = c :: cs := by
          simp
        rw [he, ← hd]
        exact hcomp.2
      rw [hval, mk_data]

theorem runCsv_row_newline (fs : List String) :
    ∀ (f : String) (row : List String) (rows : List (List String))
      (rest : List Char),
      (∀ g ∈ f :: fs, safeField g = true) →
      (row = [] → fs ≠ []) →
      runCsv .start [] [] row rows (encodeRow (f :: fs) ++ '\n' :: rest) =
        runCsv .start [] [] [] ((row.reverse ++ f :: fs) :: rows) rest := by
  induction fs with
  | nil =>
    intro f row rows rest hsafe hrow
    rw [show encodeRow [f] = encodeField f from rfl]
    rw [runCsv_field_newline f (hsafe f (List.mem_cons_self f []))
      row rows rest (fun _ => by
        intro hcon
        exact absurd rfl (hrow hcon))]
    simp
  | cons f2 fs ih =>
    intro f row rows rest hsafe _
    rw [show encodeRow (f :: f2 :: fs) = encodeField f ++ ',' :: encodeRow (f2 :: fs)
      from rfl]
    rw [List.append_assoc, List.cons_append]
    rw [runCsv_field_comma f (hsafe f (List.mem_cons_self f (f2 :: fs))) row rows]
    rw [ih f2 (f :: row) rows rest
      (fun g hg => hsafe g (List.mem_cons_of_mem f hg))
      (by simp)]
    simp

theorem runCsv_row_end (fs : List String) :
    ∀ (f : String) (row : List String) (rows : List (List String)),
      (∀ g ∈ f :: fs, safeField g = true) →
      (row = [] → fs ≠ []) →
      runCsv .start [] [] row rows (encodeRow (f :: fs)) =
        some (((row.reverse ++ f :: fs) :: rows).reverse) := by
  induction fs with
  | nil =>
    intro f row rows hsafe hrow
    rw [show encodeRow [f] = encodeField f from rfl]
    rw [runCsv_field_end f (hsafe f (List.mem_cons_self f []))
      row rows (fun _ => by
        intro hcon
        exact absurd rfl (hrow hcon))]
    simp
  | cons f2 fs ih =>
    intro f row rows hsafe _
    rw [show encodeRow (f :: f2 :: fs) = encodeField f ++ ',' :: encodeRow (f2 :: fs)
      from rfl]
    rw [runCsv_field_comma f (hsafe f (List.mem_cons_self f (f2 :: fs))) row rows]
    rw [ih f2 (f :: row) rows
      (fun g hg => hsafe g (List.mem_cons_of_mem f hg))
      (by simp)]
    simp

theorem castRecord_fields (x1 x2 x3 x4 : String) :
    castRecord csvHeaders [x1, x2, x3, x4, "true"] = ⟨x1, x2, x3, x4, true⟩ := by
  unfold castRecord csvHeaders
  simp [List.find?, show jsToLowerCase "true" = "true" from by decide]

theorem encodeRow_record_form (a b c d : String) :
    encodeRow [a, b, c, d, "true"] =
      (encodeField a ++ ',' :: (encodeField b ++ ',' ::
        (encodeField c ++ ',' :: (encodeField d ++ [','])))) ++ "true".data := by
  show encodeField a ++ ',' :: (encodeField b ++ ',' ::
      (encodeField c ++ ',' :: (encodeField d ++ ',' :: "true".data))) = _
  simp [List.append_assoc]

theorem encodeRow_record_stable (a b c d : String) :
    trimRightBy isJsSpace (encodeRow [a, b, c, d, "true"]) =
      encodeRow [a, b, c, d, "true"] := by
  rw [encodeRow_record_form]
  apply trimRightBy_append_of_stable
  · decide
  · decide

theorem encodeRow_record_ne_nil (a b c d : String) :
    encodeRow [a, b, c, d, "true"] ≠ [] := by
  rw [encodeRow_record_form]
  simp

theorem jsTrimC_content (E : List Char) (hEne : E ≠ [])
    (hE : trimRightBy isJsSpace E = E) :
    jsTrimC ((encodeRow csvHeaders ++ ['\n']) ++ (E ++ ['\n'])) =
      encodeRow csvHeaders ++ '\n' :: E := by
  unfold jsTrimC trimLeftBy
  have hform : (encodeRow csvHeaders ++ ['\n']) ++ (E ++ ['\n']) =
      'c' :: ("ompanyId,companyName,gpgName,timestamp,isContacted\n".data ++
        (E ++ ['\n'])) := rfl
  have hleft : List.dropWhile isJsSpace
      ((encodeRow csvHeaders ++ ['\n']) ++ (E ++ ['\n'])) =
      (encodeRow csvHeaders ++ ['\n']) ++ (E ++ ['\n']) := by
    rw [hform, List.dropWhile_cons_of_neg (by decide)]
  rw [hleft]
  have hassoc : (encodeRow csvHeaders ++ ['\n']) ++ (E ++ ['\n']) =
      ((encodeRow csvHeaders ++ ['\n']) ++ E) ++ ['\n'] := by simp
  rw [hassoc, trimRightBy_append_all _ _ ['\n'] (by decide)]
  rw [trimRightBy_append_of_stable _ _ E hEne hE]
  simp

/-- C8 (amended): serializing a ContactRecord the way the handlers do
(always writing the text `true` for `isContacted`, so only active records
are serialized faithfully) and parsing the line back under the stored header
recovers the record exactly, for every record whose fields are safe: each
field either contains a delimiter, quote or newline (and is therefore
quoted), or carries no leading/trailing space or tab and no carriage return.
A field with surrounding whitespace and no special character is written
unquoted and comes back trimmed, so the unrestricted claim fails. -/
theorem csv_round_trip_of_safe (r : ContactRecord) (hct : r.isContacted = true)
    (h1 : safeField r.companyId = true) (h2 : safeField r.companyName = true)
    (h3 : safeField r.gpgName = true) (h4 : safeField r.timestamp = true) :
    readContactsFromCSV (some (headerLine ++ serializeRecord r)) = [r] := by
  obtain ⟨a, b, c, d, ic⟩ := r
  dsimp only at h1 h2 h3 h4 hct
  subst hct
  simp only [readContactsFromCSV]
  rw [show (headerLine ++ serializeRecord ⟨a, b, c, d, true⟩).data =
      (encodeRow csvHeaders ++ ['\n']) ++
        (encodeRow [a, b, c, d, "true"] ++ ['\n']) from rfl]
  rw [jsTrimC_content (encodeRow [a, b, c, d, "true"])
    (encodeRow_record_ne_nil a b c d) (encodeRow_record_stable a b c d)]
  rw [if_neg (by simp)]
  unfold parseCSV
  rw [show (encodeRow csvHeaders : List Char) =
      encodeRow ("companyId" ::
        ["companyName", "gpgName", "timestamp", "isContacted"]) from rfl]
  rw [runCsv_row_newline ["companyName", "gpgName", "timestamp", "isContacted"]
    "companyId" [] [] (encodeRow [a, b, c, d, "true"]) (by decide) (by simp)]
  rw [show encodeRow [a, b, c, d, "true"] =
      encodeRow (a :: [b, c, d, "true"]) from rfl]
  rw [runCsv_row_end [b, c, d, "true"] a []
    ((([] : List String).reverse ++
      "companyId" :: ["companyName", "gpgName", "timestamp", "isContacted"]) :: [])
    (by intro g hg
        simp only [List.mem_cons, List.not_mem_nil, or_false] at hg
        rcases hg with rfl | rfl | rfl | rfl | rfl
        · exact h1
        · exact h2
        · exact h3
        · exact h4
        · decide)
    (by simp)]
  simp only [rowsToRecords, List.reverse_nil, List.nil_append, List.reverse_cons,
    List.all_cons, List.all_nil, List.length_cons, List.length_nil, beq_self_eq_true,
    Bool.and_true, Bool.and_self, if_true, List.map_cons, List.map_nil]
  simp [rowsToRecords]
  exact castRecord_fields a b c d

/-- C8 counterexample: a record whose gpgName has a leading space (no
delimiter or quote, so `csv-stringify` writes it unquoted) does not survive
the round trip: `csv-parse` with `trim: true` strips the space, so the
parsed record differs from the original. -/
theorem csv_round_trip_trims_padded_field :
    readContactsFromCSV
        (some (headerLine ++
          serializeRecord ⟨"1", "Acme", " J. Smith", "t", true⟩)) =
      [⟨"1", "Acme", "J. Smith", "t", true⟩] ∧
    (⟨"1", "Acme", "J. Smith", "t", true⟩ : ContactRecord) ≠
      ⟨"1", "Acme", " J. Smith", "t", true⟩ := by decide

/-- C8 witness: a record with a comma and a quote in its fields round-trips
exactly (those fields are quoted on write). -/
theorem csv_round_trip_of_safe_witness :
    readContactsFromCSV
        (some (headerLine ++
          serializeRecord ⟨"42", "Acme, Inc.", "J\"S", "2024-01-01", true⟩)) =
      [⟨"42", "Acme, Inc.", "J\"S", "2024-01-01", true⟩] :=
  csv_round_trip_of_safe _ rfl (by decide) (by decide) (by decide) (by decide)

theorem str_append_assoc (x y z : String) : (x ++ y) ++ z = x ++ (y ++ z) := by
  cases x with
  | mk a =>
    cases y with
    | mk b =>
      cases z with
      | mk c => exact congrArg String.mk (List.append_assoc a b c)

theorem serializeAll_append (rs : List ContactRecord) (r : ContactRecord) :
    serializeAll (rs ++ [r]) = serializeAll rs ++ serializeRecord r := by
  induction rs with
  | nil =>
    show serializeRecord r ++ "" = "" ++ serializeRecord r
    cases hs : serializeRecord r with
    | mk l => exact congrArg String.mk (List.append_nil l)
  | cons x rs ih =>
    show serializeRecord x ++ serializeAll (rs ++ [r]) = _
    rw [ih, ← str_append_assoc]
    rfl

theorem ledgerFile_append (rs : List ContactRecord) (r : ContactRecord) :
    ledgerFile rs ++ serializeRecord r = ledgerFile (rs ++ [r]) := by
  unfold ledgerFile
  rw [serializeAll_append, str_append_assoc]

theorem serializeAll_data (rs : List ContactRecord) (h : rs ≠ []) :
    (serializeAll rs).data = encodeRowsSep rs ++ ['\n'] := by
  induction rs with
  | nil => exact absurd rfl h
  | cons r rs ih =>
    cases rs with
    | nil =>
      show (serializeRecord r ++ "").data = encodeRow (rowFields r) ++ ['\n']
      rw [data_append]
      show (encodeRow (rowFields r) ++ ['\n']) ++ [] = _
      rw [List.append_nil]
    | cons r2 rs2 =>
      show (serializeRecord r ++ serializeAll (r2 :: rs2)).data = _
      rw [data_append, ih (by simp)]
      show (encodeRow (rowFields r) ++ ['\n']) ++
          (encodeRowsSep (r2 :: rs2) ++ ['\n']) =
        (encodeRow (rowFields r) ++ '\n' :: encodeRowsSep (r2 :: rs2)) ++ ['\n']
      simp

theorem encodeRowsSep_ne_nil (rs : List ContactRecord) (h : rs ≠ []) :
    encodeRowsSep rs ≠ [] := by
  cases rs with
  | nil => exact absurd rfl h
  | cons r rs =>
    cases rs with
    | nil =>
      show encodeRow (rowFields r) ≠ []
      exact encodeRow_record_ne_nil r.companyId r.companyName r.gpgName r.timestamp
    | cons r2 rs2 =>
      show encodeRow (rowFields r) ++ '\n' :: encodeRowsSep (r2 :: rs2) ≠ []
      simp

theorem encodeRowsSep_stable (rs : List ContactRecord) :
    trimRightBy isJsSpace (encodeRowsSep rs) = encodeRowsSep rs := by
  induction rs with
  | nil => rfl
  | cons r rs ih =>
    cases rs with
    | nil =>
      show trimRightBy isJsSpace (encodeRow (rowFields r)) = encodeRow (rowFields r)
      exact encodeRow_record_stable r.companyId r.companyName r.gpgName r.timestamp
    | cons r2 rs2 =>
      show trimRightBy isJsSpace
          (encodeRow (rowFields r) ++ '\n' :: encodeRowsSep (r2 :: rs2)) = _
      rw [show encodeRow (rowFields r) ++ '\n' :: encodeRowsSep (r2 :: rs2) =
          (encodeRow (rowFields r) ++ ['\n']) ++ encodeRowsSep (r2 :: rs2) from by
        simp]
      rw [trimRightBy_append_of_stable _ _ _ (encodeRowsSep_ne_nil _ (by simp)) ih]
      simp
      rfl

theorem safeRecord_parts (r : ContactRecord) (h : safeRecord r = true) :
    (∀ g ∈ rowFields r, safeField g = true) ∧ r.isContacted = true := by
  unfold safeRecord at h
  simp only [Bool.and_eq_true] at h
  obtain ⟨⟨⟨⟨h1, h2⟩, h3⟩, h4⟩, h5⟩ := h
  refine ⟨?_, h5⟩
  intro g hg
  unfold rowFields at hg
  simp only [List.mem_cons, List.not_mem_nil, or_false] at hg
  rcases hg with rfl | rfl | rfl | rfl | rfl
  · exact h1
  · exact h2
  · exact h3
  · exact h4
  · decide

theorem castRecord_rowFields (r : ContactRecord) (h : r.isContacted = true) :
    castRecord csvHeaders (rowFields r) = r := by
  obtain ⟨a, b, c, d, ic⟩ := r
  dsimp only at h
  subst h
  exact castRecord_fields a b c d

theorem runCsv_records (rs : List ContactRecord) :
    ∀ (rows : List (List String)), rs ≠ [] →
      (∀ r ∈ rs, safeRecord r = true) →
      runCsv .start [] [] [] rows (encodeRowsSep rs) =
        some (((rs.map rowFields).reverse ++ rows).reverse) := by
  induction rs with
  | nil => intro rows h _; exact absurd rfl h
  | cons r rs ih =>
    intro rows _ hsafe
    have hparts := safeRecord_parts r (hsafe r (List.mem_cons_self r rs))
    cases rs with
    | nil =>
      show runCsv .start [] [] [] rows (encodeRow (rowFields r)) = _
      rw [show encodeRow (rowFields r) = encodeRow (r.companyId ::
          [r.companyName, r.gpgName, r.timestamp, "true"]) from rfl]
      rw [runCsv_row_end [r.companyName, r.gpgName, r.timestamp, "true"]
        r.companyId [] rows (fun g hg => hparts.1 g hg) (by simp)]
      simp [rowFields]
    | cons r2 rs2 =>
      show runCsv .start [] [] [] rows
          (encodeRow (rowFields r) ++ '\n' :: encodeRowsSep (r2 :: rs2)) = _
      rw [show encodeRow (rowFields r) = encodeRow (r.companyId ::
          [r.companyName, r.gpgName, r.timestamp, "true"]) from rfl]
      rw [runCsv_row_newline [r.companyName, r.gpgName, r.timestamp, "true"]
        r.companyId [] rows (encodeRowsSep (r2 :: rs2))
        (fun g hg => hparts.1 g hg) (by simp)]
      rw [ih _ (by simp) (fun x hx => hsafe x (List.mem_cons_of_mem _ hx))]
      simp [rowFields]

theorem readContacts_ledger (rs : List ContactRecord)
    (h : ∀ r ∈ rs, safeRecord r = true) :
    readContactsFromCSV (some (ledgerFile rs)) = rs := by
  cases rs with
  | nil => decide
  | cons r rs =>
    simp only [readContactsFromCSV]
    rw [show (ledgerFile (r :: rs)).data =
        (encodeRow csvHeaders ++ ['\n']) ++
          (encodeRowsSep (r :: rs) ++ ['\n']) from by
      unfold ledgerFile
      rw [data_append, serializeAll_data _ (by simp)]
      rfl]
    rw [jsTrimC_content _ (encodeRowsSep_ne_nil _ (by simp))
      (encodeRowsSep_stable _)]
    rw [if_neg (by simp)]
    unfold parseCSV
    rw [show (encodeRow csvHeaders : List Char) =
        encodeRow ("companyId" ::
          ["companyName", "gpgName", "timestamp", "isContacted"]) from rfl]
    rw [runCsv_row_newline ["companyName", "gpgName", "timestamp", "isContacted"]
      "companyId" [] [] (encodeRowsSep (r :: rs)) (by decide) (by simp)]
    rw [runCsv_records (r :: rs) _ (by simp) h]
    rw [show ((((r :: rs).map rowFields).reverse) ++
        (((([] : List String).reverse ++ "companyId" ::
          ["companyName", "gpgName", "timestamp", "isContacted"]) :: [])
          : List (List String))).reverse =
        ["companyId", "companyName", "gpgName", "timestamp", "isContacted"] ::
          (r :: rs).map rowFields from by simp]
    show rowsToRecords (csvHeaders :: (r :: rs).map rowFields) = r :: rs
    have hall : (((r :: rs).map rowFields).all
        (fun row => row.length == csvHeaders.length)) = true := by
      rw [List.all_eq_true]
      intro x hx
      obtain ⟨r2, _, rfl⟩ := List.mem_map.mp hx
      rfl
    simp only [rowsToRecords, hall, if_true]
    rw [List.map_map]
    have hcast : ∀ x ∈ r :: rs,
        (castRecord csvHeaders ∘ rowFields) x = id x := fun x hx =>
      castRecord_rowFields x (safeRecord_parts x (h x hx)).2
    rw [List.map_congr_left hcast, List.map_id]

/-- C2 counterexample: the valid triple with companyId `" 42"` (nonempty, so
it passes validation) registered against a freshly initialized ledger — a
state with no record at all — succeeds, but the subsequent lookup of `" 42"`
through the basic file-backed GET handler answers `isContacted = false`: the
row is written unquoted and `csv-parse` with `trim: true` stores the
companyId as `"42"`, which no longer compares equal. -/
theorem register_then_lookup_padded_id_not_found :
    (∀ r ∈ readContactsFromCSV (some headerLine),
      ¬(r.companyId = " 42" ∧ r.isContacted = true)) ∧
    (registerBasic (some headerLine)
        ⟨.str " 42", .str "Acme", .str "J. Smith"⟩ "t").2 =
      .registered "J. Smith" ∧
    lookupBasic
      (registerBasic (some headerLine)
        ⟨.str " 42", .str "Acme", .str "J. Smith"⟩ "t").1
      " 42" = .notContacted := by decide

/-- C2 (amended): over the file states the store itself produces — a header
line followed by the serialized rows of safe records (`ledgerFile`) — with
no active record for the companyId, one register call through the basic
file-backed POST handler with valid, safe fields succeeds reporting the
given contactor, and a subsequent lookup of that companyId through the basic
file-backed GET handler (which re-reads and re-parses the file) reports
`isContacted = true` with the same contactor name.  Safety of the fields is
required because an unquoted padded field is trimmed on re-parse; in the
cached variant the lookup additionally requires the id to pass the `isNaN`
guard (claim C7). -/
theorem register_then_lookup_ledger_reports_contactor
    (rs : List ContactRecord) (ts cid cname gname : String)
    (hrs : ∀ r ∈ rs, safeRecord r = true)
    (hcid : cid ≠ "") (hcname : cname ≠ "") (hgname : gname ≠ "")
    (hs1 : safeField cid = true) (hs2 : safeField cname = true)
    (hs3 : safeField gname = true) (hs4 : safeField ts = true)
    (hno : ∀ r ∈ rs, ¬(r.companyId = cid ∧ r.isContacted = true)) :
    (registerBasic (some (ledgerFile rs))
        ⟨.str cid, .str cname, .str gname⟩ ts).2 = .registered gname ∧
    lookupBasic
      (registerBasic (some (ledgerFile rs))
        ⟨.str cid, .str cname, .str gname⟩ ts).1
      cid = .contacted gname := by
  have h1 : jsTruthy (JSValue.str cid) = true := by simp [jsTruthy, hcid]
  have h2 : jsTruthy (JSValue.str cname) = true := by simp [jsTruthy, hcname]
  have h3 : jsTruthy (JSValue.str gname) = true := by simp [jsTruthy, hgname]
  have hread : readContactsFromCSV (some (ledgerFile rs)) = rs :=
    readContacts_ledger rs hrs
  have hfind : findExisting rs cid = none :=
    findExisting_eq_none_of_no_active _ _ hno
  have hsrec : safeRecord ⟨cid, cname, gname, ts, true⟩ = true := by
    unfold safeRecord
    simp [hs1, hs2, hs3, hs4]
  have hstep : registerBasic (some (ledgerFile rs))
      ⟨.str cid, .str cname, .str gname⟩ ts =
      (some (ledgerFile (rs ++ [⟨cid, cname, gname, ts, true⟩])),
        .registered gname) := by
    unfold registerBasic
    rw [if_neg (by simp [h1, h2, h3])]
    rw [show jsToString (JSValue.str cid) = cid from rfl,
      show jsToString (JSValue.str cname) = cname from rfl,
      show jsToString (JSValue.str gname) = gname from rfl]
    rw [hread, hfind]
    simp only [Option.getD_some]
    rw [ledgerFile_append]
  constructor
  · rw [hstep]
  · rw [hstep]
    dsimp only
    unfold lookupBasic
    have hread2 : readContactsFromCSV
        (some (ledgerFile (rs ++ [⟨cid, cname, gname, ts, true⟩]))) =
        rs ++ [⟨cid, cname, gname, ts, true⟩] := by
      apply readContacts_ledger
      intro x hx
      rcases List.mem_append.mp hx with hx | hx
      · exact hrs x hx
      · rw [List.mem_singleton.mp hx]
        exact hsrec
    rw [hread2]
    rw [lookupFromCache,
      latestActive_append_single rs ⟨cid, cname, gname, ts, true⟩ cid rfl rfl]

/-- C2 witness: registering company 42 against a ledger that knows only
company 7, then looking 42 up through the file-backed handlers. -/
theorem register_then_lookup_ledger_reports_contactor_witness :
    (registerBasic (some (ledgerFile [⟨"7", "Old", "Olga", "t0", true⟩]))
        ⟨.str "42", .str "Acme Corp", .str "J. Smith"⟩ "2024-01-01").2 =
      .registered "J. Smith" ∧
    lookupBasic
      (registerBasic (some (ledgerFile [⟨"7", "Old", "Olga", "t0", true⟩]))
        ⟨.str "42", .str "Acme Corp", .str "J. Smith"⟩ "2024-01-01").1
      "42" = .contacted "J. Smith" :=
  register_then_lookup_ledger_reports_contactor _ _ _ _ _ (by decide)
    (by decide) (by decide) (by decide) (by decide) (by decide) (by decide)
    (by decide) (by decide)
